import Mathlib

/-!
Shallow embedding of the tic-tac-toe backend (src/main.py, src/schemas.py).

The HTTP transport and the Mongo document store are collapsed to pure
functions: each endpoint takes the record stored under the requested room
code (an `Option Game`) and returns either an error (the python
`HTTPException` raises) or the updated record; a thin store layer
(`Store`, an association list keyed by `game_id`) mirrors `find_one`,
`insert_one` and `update_one` so that endpoint-level properties about the
persisted state can be stated.

Python truthiness matters in two places and is embedded explicitly:
`not game.get("x_player")` in `join_game` is true both for a missing
binding and for one bound to the empty string (`strFalsy`), and
`if board[a]` in `calculate_winner` is the `Option.isSome` test.
-/

namespace TicTacToe

/-- A mark on the board, the python strings `'X'` / `'O'` of
`Literal['X','O']` in schemas.py. -/
inductive Mark where
  | X
  | O
deriving DecidableEq, Repr, Fintype

/-- The board: python `List[Optional[Literal['X','O']]]`, 9 positions. -/
abbrev Board := List (Option Mark)

/-- The `Game` pydantic model of schemas.py (one document per room code). -/
structure Game where
  game_id : String
  board : Board
  x_starts : Bool
  x_is_next : Bool
  x_player : Option String
  o_player : Option String
  winner : Option Mark
  draw : Bool
  score_x : Nat
  score_o : Nat
deriving DecidableEq, Repr

/-- The pydantic field defaults of `Game(game_id=gid)` in schemas.py. -/
def defaultGame (gid : String) : Game :=
  { game_id := gid
    board := List.replicate 9 none
    x_starts := true
    x_is_next := true
    x_player := none
    o_player := none
    winner := none
    draw := false
    score_x := 0
    score_o := 0 }

/-- The error outcomes raised by the endpoints (the `HTTPException`s of
main.py, identified by their detail message). -/
inductive ApiError where
  | notFound
  | badCode
  | gameFull
  | invalidRole
  | notAuthorized
  | roundFinished
  | notYourTurn
  | invalidIndex
  | squareFilled
deriving DecidableEq, Repr

/-- The 8 winning lines of `calculate_winner` (main.py lines 24-28). -/
def lines : List (Nat × Nat × Nat) :=
  [(0, 1, 2), (3, 4, 5), (6, 7, 8),
   (0, 3, 6), (1, 4, 7), (2, 5, 8),
   (0, 4, 8), (2, 4, 6)]

/-- The loop body of `calculate_winner`: walk the given lines in order and
return `board[a]` at the first line with `board[a]` truthy and
`board[a] == board[b] == board[c]`. -/
def firstWin (b : Board) : List (Nat × Nat × Nat) → Option Mark
  | [] => none
  | l :: rest =>
    match b.getD l.1 none with
    | none => firstWin b rest
    | some m =>
      if b.getD l.2.1 none = some m ∧ b.getD l.2.2 none = some m then some m
      else firstWin b rest

/-- `calculate_winner` of main.py lines 23-32. -/
def calculate_winner (b : Board) : Option Mark :=
  firstWin b lines

/-- Python truthiness test `not v` on an `Optional[str]`: true for `None`
and for the empty string. Used by `join_game`'s `not game.get("x_player")`
and `not game.get("o_player")`. -/
def strFalsy : Option String → Bool
  | none => true
  | some s => s = ""

/-- `join_game` of main.py lines 61-94, on the record stored under the
requested code. Success returns the assigned role together with the
record as persisted (inserted or updated). -/
def join_game (game? : Option Game) (gid pid : String) : Except ApiError (Mark × Game) :=
  if ¬(gid ≠ "" ∧ gid.length = 4 ∧ gid.toList.all Char.isDigit = true) then
    .error .badCode
  else
    match game? with
    | none => .ok (.X, { defaultGame gid with x_player := some pid })
    | some game =>
      if game.x_player = some pid then .ok (.X, game)
      else if game.o_player = some pid then .ok (.O, game)
      else if strFalsy game.x_player then .ok (.X, { game with x_player := some pid })
      else if strFalsy game.o_player then .ok (.O, { game with o_player := some pid })
      else .error .gameFull

/-- `get_game` of main.py lines 97-102 (the Fetch endpoint). -/
def get_game (game? : Option Game) : Except ApiError Game :=
  match game? with
  | none => .error .notFound
  | some game => .ok game

/-- The `MoveRequest` pydantic model of main.py lines 105-108. `index` is a
python `int`, so it is embedded as `Int` (it can be negative). -/
structure MoveRequest where
  index : Int
  role : String
  player_id : String
deriving DecidableEq, Repr

/-- The post-validation part of `make_move` (main.py lines 144-173): place
the mark, evaluate the winner, update draw/scores, flip `x_is_next`, and
`$set` exactly those fields. -/
def apply_move (game : Game) (mark : Mark) (idx : Nat) : Game :=
  let board := game.board.set idx (some mark)
  match calculate_winner board with
  | some w =>
    { game with
      board := board
      x_is_next := !game.x_is_next
      winner := some w
      draw := false
      score_x := if w = Mark.X then game.score_x + 1 else game.score_x
      score_o := if w = Mark.X then game.score_o else game.score_o + 1 }
  | none =>
    { game with
      board := board
      x_is_next := !game.x_is_next
      winner := none
      draw := board.all Option.isSome
      score_x := game.score_x
      score_o := game.score_o }

/-- `make_move` of main.py lines 111-176, on the record stored under the
requested code: the seven validation checks in source order, then
`apply_move`. -/
def make_move (game? : Option Game) (p : MoveRequest) : Except ApiError Game :=
  match game? with
  | none => .error .notFound
  | some game =>
    if ¬(p.role = "X" ∨ p.role = "O") then .error .invalidRole
    else if p.role = "X" ∧ game.x_player ≠ some p.player_id then .error .notAuthorized
    else if p.role = "O" ∧ game.o_player ≠ some p.player_id then .error .notAuthorized
    else if game.winner.isSome ∨ game.draw then .error .roundFinished
    else if (p.role = "X" ∧ game.x_is_next = false) ∨ (p.role = "O" ∧ game.x_is_next = true) then
      .error .notYourTurn
    else if p.index < 0 ∨ p.index > 8 then .error .invalidIndex
    else if (game.board.getD p.index.toNat none).isSome then .error .squareFilled
    else .ok (apply_move game (if p.role = "X" then Mark.X else Mark.O) p.index.toNat)

/-- `reset_round` of main.py lines 179-201, on the record stored under the
requested code. -/
def reset_round (game? : Option Game) : Except ApiError Game :=
  match game? with
  | none => .error .notFound
  | some game =>
    let next_starter_is_x := !game.x_starts
    .ok { game with
          board := List.replicate 9 none
          winner := none
          draw := false
          x_starts := next_starter_is_x
          x_is_next := next_starter_is_x }

/-- `reset_scores` of main.py lines 204-216, on the record stored under the
requested code. -/
def reset_scores (game? : Option Game) : Except ApiError Game :=
  match game? with
  | none => .error .notFound
  | some game =>
    .ok { game with
          score_x := 0
          score_o := 0
          board := List.replicate 9 none
          winner := none
          draw := false
          x_is_next := game.x_starts }

instance {ε α : Type} [DecidableEq ε] [DecidableEq α] : DecidableEq (Except ε α) := fun x y =>
  match x, y with
  | .error a, .error b =>
    if h : a = b then isTrue (by rw [h]) else isFalse (fun hc => h (by cases hc; rfl))
  | .error _, .ok _ => isFalse (fun hc => Except.noConfusion hc)
  | .ok _, .error _ => isFalse (fun hc => Except.noConfusion hc)
  | .ok a, .ok b =>
    if h : a = b then isTrue (by rw [h]) else isFalse (fun hc => h (by cases hc; rfl))

/-! ### The store layer

`db[COLL]` of main.py, as an association list from `game_id` keys to
records. `find_one` returns the first document matching the key,
`insert_one` appends a new document, `update_one` replaces the fields of
the first matching document (here: the whole record, since the engine
already computed the record as `$set` leaves it). Each endpoint wrapper
performs the read-validate-write cycle of the python handler: the store is
written only on the success path, because every `raise` in the source
precedes every `insert_one`/`update_one`. -/

abbrev Store := List (String × Game)

/-- `db[COLL].find_one({"game_id": gid})`. -/
def findOne : Store → String → Option Game
  | [], _ => none
  | (k, g) :: rest, gid => if k = gid then some g else findOne rest gid

/-- `db[COLL].insert_one(doc)`. -/
def insertOne (s : Store) (gid : String) (g : Game) : Store :=
  s ++ [(gid, g)]

/-- `db[COLL].update_one({"game_id": gid}, {"$set": ...})`: replace the
first document whose key matches. -/
def updateOne : Store → String → Game → Store
  | [], _, _ => []
  | (k, g0) :: rest, gid, g =>
    if k = gid then (k, g) :: rest else (k, g0) :: updateOne rest gid g

/-- The `POST /api/game/join` handler: load, run `join_game`, persist on
success (insert for a fresh code, update otherwise). -/
def join_ep (s : Store) (gid pid : String) : Except ApiError (Mark × Game) × Store :=
  match join_game (findOne s gid) gid pid with
  | .error e => (.error e, s)
  | .ok (r, g) =>
    (.ok (r, g),
      match findOne s gid with
      | none => insertOne s gid g
      | some _ => updateOne s gid g)

/-- The `GET /api/game/{game_id}` handler: read-only. -/
def get_ep (s : Store) (gid : String) : Except ApiError Game × Store :=
  (get_game (findOne s gid), s)

/-- The `POST /api/game/{game_id}/move` handler. -/
def move_ep (s : Store) (gid : String) (p : MoveRequest) : Except ApiError Game × Store :=
  match make_move (findOne s gid) p with
  | .error e => (.error e, s)
  | .ok g => (.ok g, updateOne s gid g)

/-- The `POST /api/game/{game_id}/reset-round` handler. -/
def reset_round_ep (s : Store) (gid : String) : Except ApiError Game × Store :=
  match reset_round (findOne s gid) with
  | .error e => (.error e, s)
  | .ok g => (.ok g, updateOne s gid g)

/-- The `POST /api/game/{game_id}/reset-scores` handler. -/
def reset_scores_ep (s : Store) (gid : String) : Except ApiError Game × Store :=
  match reset_scores (findOne s gid) with
  | .error e => (.error e, s)
  | .ok g => (.ok g, updateOne s gid g)

/-! ### Derived notions used by the claims -/

/-- A line `(a, b, c)` is a win for `m` on board `b`: all three cells
non-empty and equal (spec §4.3). -/
def lineAllEq (b : Board) (l : Nat × Nat × Nat) (m : Mark) : Prop :=
  b.getD l.1 none = some m ∧ b.getD l.2.1 none = some m ∧ b.getD l.2.2 none = some m

instance (b : Board) (l : Nat × Nat × Nat) (m : Mark) : Decidable (lineAllEq b l m) := by
  unfold lineAllEq
  infer_instance

/-- The error component of an endpoint outcome. -/
def errOf : Except ApiError α → Option ApiError
  | .error e => some e
  | .ok _ => none

/-- Modelled from the spec (§4.3): the Move validation checks in the
stated order, returning the error of the first failing check, or `none`
when every check passes. Used to compare `make_move` against the spec's
stated ordering. -/
def spec_move_error (game? : Option Game) (p : MoveRequest) : Option ApiError :=
  match game? with
  | none => some .notFound
  | some g =>
    if ¬(p.role = "X" ∨ p.role = "O") then some .invalidRole
    else if (p.role = "X" ∧ g.x_player ≠ some p.player_id) ∨
            (p.role = "O" ∧ g.o_player ≠ some p.player_id) then some .notAuthorized
    else if g.winner.isSome ∨ g.draw = true then some .roundFinished
    else if (p.role = "X" ∧ ¬g.x_is_next = true) ∨ (p.role = "O" ∧ ¬g.x_is_next = false) then
      some .notYourTurn
    else if ¬(0 ≤ p.index ∧ p.index ≤ 8) then some .invalidIndex
    else if ¬(g.board.getD p.index.toNat none = none) then some .squareFilled
    else none

/-- Game records reachable through the engine operations: created by a
first join, then transformed by accepted joins, moves and resets. -/
inductive Reachable : Game → Prop where
  | join_new (gid pid : String) (r : Mark) (g : Game) :
      join_game none gid pid = .ok (r, g) → Reachable g
  | join_old (gid pid : String) (r : Mark) (g g' : Game) :
      Reachable g → join_game (some g) gid pid = .ok (r, g') → Reachable g'
  | move (p : MoveRequest) (g g' : Game) :
      Reachable g → make_move (some g) p = .ok g' → Reachable g'
  | round_reset (g g' : Game) :
      Reachable g → reset_round (some g) = .ok g' → Reachable g'
  | scores_reset (g g' : Game) :
      Reachable g → reset_scores (some g) = .ok g' → Reachable g'

/-! ### Concrete scenarios used by witnesses and counterexamples -/

/-- The spec's win-detection scenario: cells 0 and 1 hold X, cells 4 and 5
hold O, X to move. -/
def winGame : Game :=
  { defaultGame "1234" with
    x_player := some "p1"
    o_player := some "p2"
    board := [some Mark.X, some Mark.X, none, none, some Mark.O, some Mark.O, none, none, none]
    score_x := 1 }

/-- X plays index 2 on `winGame`. -/
def winReq : MoveRequest := ⟨2, "X", "p1"⟩

/-- The record `make_move` produces from `winGame` and `winReq`. -/
def winGameAfter : Game :=
  { winGame with
    board := [some Mark.X, some Mark.X, some Mark.X, none, some Mark.O, some Mark.O, none,
              none, none]
    x_is_next := false
    winner := some Mark.X
    score_x := 2 }

/-- A board one cell short of full with no three-in-a-row anywhere once X
fills cell 8. -/
def drawGame : Game :=
  { defaultGame "1234" with
    x_player := some "p1"
    o_player := some "p2"
    board := [some Mark.X, some Mark.O, some Mark.X, some Mark.X, some Mark.O, some Mark.O,
              some Mark.O, some Mark.X, none] }

/-- X plays index 8 on `drawGame`. -/
def drawReq : MoveRequest := ⟨8, "X", "p1"⟩

/-- The record `make_move` produces from `drawGame` and `drawReq`. -/
def drawGameAfter : Game :=
  { drawGame with
    board := [some Mark.X, some Mark.O, some Mark.X, some Mark.X, some Mark.O, some Mark.O,
              some Mark.O, some Mark.X, some Mark.X]
    x_is_next := false
    draw := true }

/-- A record whose X seat is bound to the empty-string identifier, exactly
what a first join with `player_id = ""` creates. -/
def emptyIdGame : Game :=
  { defaultGame "1234" with x_player := some "" }

/-- The record created by a first join with identifier `"p"`. -/
def joinedGame : Game :=
  { defaultGame "1234" with x_player := some "p" }

/-! ### Helper lemmas -/

theorem firstWin_eq_some {b : Board} {L : List (Nat × Nat × Nat)} {m : Mark}
    (h : firstWin b L = some m) : ∃ l ∈ L, lineAllEq b l m := by
  induction L with
  | nil => simp [firstWin] at h
  | cons l rest ih =>
    rw [firstWin] at h
    split at h
    · obtain ⟨l', hl', hla⟩ := ih h
      exact ⟨l', List.mem_cons_of_mem _ hl', hla⟩
    · rename_i m0 heq
      split at h
      · rename_i hbc
        cases h
        exact ⟨l, List.mem_cons_self _ _, ⟨heq, hbc.1, hbc.2⟩⟩
      · obtain ⟨l', hl', hla⟩ := ih h
        exact ⟨l', List.mem_cons_of_mem _ hl', hla⟩

theorem firstWin_isSome_of {b : Board} {L : List (Nat × Nat × Nat)} {l : Nat × Nat × Nat}
    {m : Mark} (hl : l ∈ L) (h : lineAllEq b l m) : (firstWin b L).isSome = true := by
  induction L with
  | nil => cases hl
  | cons l0 rest ih =>
    rw [firstWin]
    split
    · rename_i heq
      rcases List.mem_cons.mp hl with rfl | hmem
      · rw [h.1] at heq; cases heq
      · exact ih hmem
    · rename_i m0 heq
      split
      · rfl
      · rename_i hbc
        rcases List.mem_cons.mp hl with rfl | hmem
        · rw [h.1] at heq
          cases heq
          exact absurd ⟨h.2.1, h.2.2⟩ hbc
        · exact ih hmem

theorem calculate_winner_eq_some {b : Board} {m : Mark} (h : calculate_winner b = some m) :
    ∃ l ∈ lines, lineAllEq b l m :=
  firstWin_eq_some h

theorem calculate_winner_eq_none {b : Board} (h : calculate_winner b = none) :
    ¬ ∃ l ∈ lines, ∃ m, lineAllEq b l m := by
  rintro ⟨l, hl, m, hm⟩
  have hs := firstWin_isSome_of hl hm
  rw [calculate_winner] at h
  rw [h] at hs
  cases hs

theorem calculate_winner_isSome_iff (b : Board) :
    (calculate_winner b).isSome = true ↔ ∃ l ∈ lines, ∃ m, lineAllEq b l m := by
  constructor
  · intro h
    cases hw : calculate_winner b with
    | none => rw [hw] at h; cases h
    | some m =>
      obtain ⟨l, hl, hla⟩ := calculate_winner_eq_some hw
      exact ⟨l, hl, m, hla⟩
  · rintro ⟨l, hl, m, hm⟩
    exact firstWin_isSome_of hl hm

theorem apply_move_board (g : Game) (mark : Mark) (idx : Nat) :
    (apply_move g mark idx).board = g.board.set idx (some mark) := by
  simp only [apply_move]
  split <;> rfl

theorem apply_move_winner (g : Game) (mark : Mark) (idx : Nat) :
    (apply_move g mark idx).winner = calculate_winner (g.board.set idx (some mark)) := by
  simp only [apply_move]
  split <;> simp_all

theorem apply_move_frame (g : Game) (mark : Mark) (idx : Nat) :
    (apply_move g mark idx).x_is_next = !g.x_is_next ∧
    (apply_move g mark idx).x_starts = g.x_starts ∧
    (apply_move g mark idx).x_player = g.x_player ∧
    (apply_move g mark idx).o_player = g.o_player ∧
    (apply_move g mark idx).game_id = g.game_id := by
  simp only [apply_move]
  split <;> exact ⟨rfl, rfl, rfl, rfl, rfl⟩

theorem apply_move_winner_none {g : Game} {mark : Mark} {idx : Nat}
    (h : calculate_winner (g.board.set idx (some mark)) = none) :
    (apply_move g mark idx).winner = none ∧
    (apply_move g mark idx).draw = (g.board.set idx (some mark)).all Option.isSome ∧
    (apply_move g mark idx).score_x = g.score_x ∧
    (apply_move g mark idx).score_o = g.score_o := by
  simp only [apply_move]
  split <;> simp_all

theorem apply_move_winner_some {g : Game} {mark w : Mark} {idx : Nat}
    (h : calculate_winner (g.board.set idx (some mark)) = some w) :
    (apply_move g mark idx).winner = some w ∧
    (apply_move g mark idx).draw = false ∧
    (apply_move g mark idx).score_x = (if w = Mark.X then g.score_x + 1 else g.score_x) ∧
    (apply_move g mark idx).score_o = (if w = Mark.X then g.score_o else g.score_o + 1) := by
  simp only [apply_move]
  split <;> simp_all

theorem make_move_ok_inv {g g' : Game} {p : MoveRequest}
    (h : make_move (some g) p = .ok g') :
    g' = apply_move g (if p.role = "X" then Mark.X else Mark.O) p.index.toNat := by
  rw [make_move] at h
  repeat' split at h
  all_goals simp_all

theorem apply_move_winner_spec (g : Game) (mk : Mark) (idx : Nat) :
    (((apply_move g mk idx).winner.isSome = true) ↔
      ∃ l ∈ lines, ∃ m, lineAllEq (apply_move g mk idx).board l m) ∧
    (∀ m, (apply_move g mk idx).winner = some m →
      ∃ l ∈ lines, lineAllEq (apply_move g mk idx).board l m) ∧
    ((apply_move g mk idx).winner = some Mark.X →
      (apply_move g mk idx).score_x = g.score_x + 1 ∧ (apply_move g mk idx).score_o = g.score_o) ∧
    ((apply_move g mk idx).winner = some Mark.O →
      (apply_move g mk idx).score_o = g.score_o + 1 ∧ (apply_move g mk idx).score_x = g.score_x) ∧
    ((apply_move g mk idx).winner = none →
      (apply_move g mk idx).score_x = g.score_x ∧ (apply_move g mk idx).score_o = g.score_o) := by
  have hb := apply_move_board g mk idx
  cases hw : calculate_winner (g.board.set idx (some mk)) with
  | none =>
    obtain ⟨hwin, _, hsx, hso⟩ := apply_move_winner_none hw
    refine ⟨?_, ?_, ?_, ?_, fun _ => ⟨hsx, hso⟩⟩
    · rw [hwin, hb]
      simp only [Option.isSome_none, Bool.false_eq_true, false_iff]
      exact calculate_winner_eq_none hw
    · intro m hm; rw [hwin] at hm; cases hm
    · intro hm; rw [hwin] at hm; cases hm
    · intro hm; rw [hwin] at hm; cases hm
  | some w =>
    obtain ⟨hwin, _, hsx, hso⟩ := apply_move_winner_some hw
    have hex : ∃ l ∈ lines, lineAllEq (apply_move g mk idx).board l w := by
      rw [hb]; exact calculate_winner_eq_some hw
    refine ⟨?_, ?_, ?_, ?_, ?_⟩
    · rw [hwin]
      simp only [Option.isSome_some, true_iff]
      obtain ⟨l, hl, hla⟩ := hex
      exact ⟨l, hl, w, hla⟩
    · intro m hm
      rw [hwin] at hm
      injection hm with hm
      subst hm
      exact hex
    · intro hm
      rw [hwin] at hm
      injection hm with hm
      subst hm
      rw [hsx, hso]
      simp
    · intro hm
      rw [hwin] at hm
      injection hm with hm
      subst hm
      rw [hsx, hso]
      simp
    · intro hm; rw [hwin] at hm; cases hm

/-- Claim C1: for every accepted move, the winner flag is set exactly when
one of the 8 winning lines is completed (all three cells non-empty and
equal), the winner is a mark owning such a line, and exactly that mark's
score is incremented by exactly 1 with the other score unchanged. -/
theorem move_winner_spec (g g' : Game) (p : MoveRequest)
    (h : make_move (some g) p = .ok g') :
    ((g'.winner.isSome = true) ↔ ∃ l ∈ lines, ∃ m, lineAllEq g'.board l m) ∧
    (∀ m, g'.winner = some m → ∃ l ∈ lines, lineAllEq g'.board l m) ∧
    (g'.winner = some Mark.X → g'.score_x = g.score_x + 1 ∧ g'.score_o = g.score_o) ∧
    (g'.winner = some Mark.O → g'.score_o = g.score_o + 1 ∧ g'.score_x = g.score_x) ∧
    (g'.winner = none → g'.score_x = g.score_x ∧ g'.score_o = g.score_o) := by
  obtain rfl := make_move_ok_inv h
  exact apply_move_winner_spec g _ _

/-- Witness for C1, the spec's own example: placing X at index 2 on the
board `[X,X,_,_,O,O,_,_,_]` yields winner X and `score_x` incremented by
exactly 1, `score_o` unchanged. -/
theorem move_winner_spec_witness :
    winGameAfter.winner = some Mark.X ∧
    winGameAfter.score_x = winGame.score_x + 1 ∧
    winGameAfter.score_o = winGame.score_o := by
  have h := move_winner_spec winGame winGameAfter winReq (by decide)
  exact ⟨by decide, (h.2.2.1 (by decide)).1, (h.2.2.1 (by decide)).2⟩

theorem apply_move_draw_spec (g : Game) (mk : Mark) (idx : Nat) :
    ((apply_move g mk idx).draw = true ↔
      ((apply_move g mk idx).board.all Option.isSome = true ∧
        ¬∃ l ∈ lines, ∃ m, lineAllEq (apply_move g mk idx).board l m)) ∧
    ((apply_move g mk idx).winner.isSome = true → (apply_move g mk idx).draw = false) ∧
    (((apply_move g mk idx).board.all Option.isSome = false ∧
        ¬∃ l ∈ lines, ∃ m, lineAllEq (apply_move g mk idx).board l m) →
      (apply_move g mk idx).draw = false ∧ (apply_move g mk idx).winner = none) := by
  have hb := apply_move_board g mk idx
  cases hw : calculate_winner (g.board.set idx (some mk)) with
  | none =>
    obtain ⟨hwin, hdraw, _, _⟩ := apply_move_winner_none hw
    rw [← hb] at hdraw
    have hno : ¬∃ l ∈ lines, ∃ m, lineAllEq (apply_move g mk idx).board l m := by
      rw [hb]; exact calculate_winner_eq_none hw
    refine ⟨?_, ?_, ?_⟩
    · rw [hdraw]
      exact ⟨fun hall => ⟨hall, hno⟩, fun hall => hall.1⟩
    · intro hs; rw [hwin] at hs; cases hs
    · rintro ⟨hfull, -⟩
      rw [hdraw]
      exact ⟨hfull, hwin⟩
  | some w =>
    obtain ⟨hwin, hdraw, _, _⟩ := apply_move_winner_some hw
    have hex : ∃ l ∈ lines, ∃ m, lineAllEq (apply_move g mk idx).board l m := by
      rw [hb]
      obtain ⟨l, hl, hla⟩ := calculate_winner_eq_some hw
      exact ⟨l, hl, w, hla⟩
    refine ⟨?_, fun _ => hdraw, ?_⟩
    · rw [hdraw]
      constructor
      · intro hfalse; cases hfalse
      · rintro ⟨-, hno⟩; exact absurd hex hno
    · rintro ⟨-, hno⟩; exact absurd hex hno

/-- Claim C2: for every accepted move on a 9-cell board, the draw flag is
set exactly when all 9 cells are non-empty and no winning line exists;
when a winner exists draw stays false, and when the board is not full and
no line exists both flags stay unset. -/
theorem move_draw_spec (g g' : Game) (p : MoveRequest)
    (h9 : g.board.length = 9) (h : make_move (some g) p = .ok g') :
    g'.board.length = 9 ∧
    (g'.draw = true ↔
      (g'.board.all Option.isSome = true ∧ ¬∃ l ∈ lines, ∃ m, lineAllEq g'.board l m)) ∧
    (g'.winner.isSome = true → g'.draw = false) ∧
    ((g'.board.all Option.isSome = false ∧ ¬∃ l ∈ lines, ∃ m, lineAllEq g'.board l m) →
      g'.draw = false ∧ g'.winner = none) := by
  obtain rfl := make_move_ok_inv h
  refine ⟨?_, apply_move_draw_spec g _ _⟩
  rw [apply_move_board, List.length_set, h9]

/-- Witness for C2, the spec's draw scenario: X filling the last empty
cell of a board with no three-in-a-row yields `draw = true` with the
winner unset. -/
theorem move_draw_spec_witness :
    drawGameAfter.draw = true ∧ drawGameAfter.winner = none ∧ drawGameAfter.board.length = 9 := by
  have h := move_draw_spec drawGame drawGameAfter drawReq (by decide) (by decide)
  exact ⟨(h.2.1).mpr ⟨by decide, by decide⟩, by decide, h.1⟩

/-- Claim C3: for every Move request, `make_move` rejects with exactly the
error of the first failing check in the spec's stated order (game
existence, role validity, caller binding — an unbound role can never
move, round not decided, turn, index range, cell emptiness), and accepts
exactly when every check passes. -/
theorem move_validation_order (game? : Option Game) (p : MoveRequest) :
    errOf (make_move game? p) = spec_move_error game? p := by
  cases game? with
  | none => rfl
  | some g =>
    rw [make_move, spec_move_error]
    split_ifs <;>
      simp_all [errOf, Option.isSome_iff_ne_none] <;>
      first
        | omega
        | tauto
        | aesop

/-- Claim C4 counterexample: the claim as stated fails on the code. A
first join with the empty-string identifier binds `x_player = some ""`,
leaving `o_player` unset; by the claim, a later distinct caller must then
be bound as O (X is no longer unset), but `join_game` rebinds that caller
as X, overwriting the empty-string binding, because the python truthiness
test `not game.get("x_player")` treats `""` like a missing binding. -/
theorem join_role_assignment_cex :
    join_game none "1234" "" = .ok (Mark.X, emptyIdGame) ∧
    emptyIdGame.x_player = some "" ∧
    emptyIdGame.o_player = none ∧
    join_game (some emptyIdGame) "1234" "zz" =
      .ok (Mark.X, { emptyIdGame with x_player := some "zz" }) ∧
    join_game (some emptyIdGame) "1234" "zz" ≠
      .ok (Mark.O, { emptyIdGame with o_player := some "zz" }) :=
  ⟨by decide, by decide, by decide, by decide, by decide⟩

/-- Claim C4 (amended): a room code that is not exactly 4 numeric
characters is rejected; on a valid code with no record, a default game is
created with the caller bound as X; on an existing record a caller
matching `x_player` or `o_player` gets that role back unchanged;
otherwise the caller is bound as X if `x_player` is unset *or holds the
empty string*, else as O if `o_player` is unset *or holds the empty
string*, else the join fails with a capacity error. -/
theorem join_role_assignment (g : Game) (gid pid : String) :
    (¬(gid ≠ "" ∧ gid.length = 4 ∧ gid.toList.all Char.isDigit = true) →
      join_game none gid pid = .error .badCode ∧
      join_game (some g) gid pid = .error .badCode) ∧
    ((gid ≠ "" ∧ gid.length = 4 ∧ gid.toList.all Char.isDigit = true) →
      (join_game none gid pid = .ok (Mark.X, { defaultGame gid with x_player := some pid })) ∧
      (g.x_player = some pid → join_game (some g) gid pid = .ok (Mark.X, g)) ∧
      (g.x_player ≠ some pid → g.o_player = some pid →
        join_game (some g) gid pid = .ok (Mark.O, g)) ∧
      (g.x_player ≠ some pid → g.o_player ≠ some pid → strFalsy g.x_player = true →
        join_game (some g) gid pid = .ok (Mark.X, { g with x_player := some pid })) ∧
      (g.x_player ≠ some pid → g.o_player ≠ some pid → strFalsy g.x_player = false →
        strFalsy g.o_player = true →
        join_game (some g) gid pid = .ok (Mark.O, { g with o_player := some pid })) ∧
      (g.x_player ≠ some pid → g.o_player ≠ some pid → strFalsy g.x_player = false →
        strFalsy g.o_player = false → join_game (some g) gid pid = .error .gameFull)) := by
  constructor
  · intro hv
    constructor <;> rw [join_game, if_pos hv]
  · intro hv
    have hv' := not_not_intro hv
    refine ⟨?_, ?_, ?_, ?_, ?_, ?_⟩
    · rw [join_game, if_neg hv']
    · intro h1
      rw [join_game, if_neg hv']
      simp [h1]
    · intro h1 h2
      rw [join_game, if_neg hv']
      simp [h1, h2]
    · intro h1 h2 h3
      rw [join_game, if_neg hv']
      simp [h1, h2, h3]
    · intro h1 h2 h3 h4
      rw [join_game, if_neg hv']
      simp [h1, h2, h3, h4]
    · intro h1 h2 h3 h4
      rw [join_game, if_neg hv']
      simp [h1, h2, h3, h4]

/-- Witness for the amended C4: a fresh join assigns X, a rejoin with the
same identifier returns X unchanged, a second distinct identifier gets O,
and a third is rejected for capacity. -/
theorem join_role_assignment_witness :
    join_game none "1234" "p" = .ok (Mark.X, joinedGame) ∧
    join_game (some joinedGame) "1234" "p" = .ok (Mark.X, joinedGame) ∧
    join_game (some joinedGame) "1234" "q" =
      .ok (Mark.O, { joinedGame with o_player := some "q" }) ∧
    join_game (some { joinedGame with o_player := some "q" }) "1234" "r" =
      .error .gameFull := by
  have h1 := (join_role_assignment joinedGame "1234" "p").2 (by decide)
  have h2 := (join_role_assignment joinedGame "1234" "q").2 (by decide)
  have h3 := (join_role_assignment { joinedGame with o_player := some "q" } "1234" "r").2
    (by decide)
  exact ⟨h1.1, h1.2.1 (by decide),
    h2.2.2.2.2.1 (by decide) (by decide) (by decide) (by decide),
    h3.2.2.2.2.2 (by decide) (by decide) (by decide) (by decide)⟩

/-- Claim C5: every accepted move flips `x_is_next` to the negation of its
prior value, regardless of the move's outcome (including moves that set
the winner or the draw flag), and a rejected move leaves the stored state
(hence `x_is_next`) unchanged. -/
theorem move_turn_flip :
    (∀ (g g' : Game) (p : MoveRequest),
      make_move (some g) p = .ok g' → g'.x_is_next = !g.x_is_next) ∧
    (∀ (s : Store) (gid : String) (p : MoveRequest) (e : ApiError),
      (move_ep s gid p).1 = .error e → (move_ep s gid p).2 = s) := by
  constructor
  · intro g g' p h
    obtain rfl := make_move_ok_inv h
    exact (apply_move_frame g _ _).1
  · intro s gid p e h
    rw [move_ep] at h ⊢
    cases hm : make_move (findOne s gid) p with
    | error e0 => rfl
    | ok g0 => rw [hm] at h; cases h

/-- Witness for C5: the winning move of the spec's example flips
`x_is_next` from true to false even though it ends the round, and a move
on a room with no record is rejected with the store untouched. -/
theorem move_turn_flip_witness :
    winGameAfter.x_is_next = !winGame.x_is_next ∧ (move_ep [] "1234" winReq).2 = [] :=
  ⟨move_turn_flip.1 winGame winGameAfter winReq (by decide),
   move_turn_flip.2 [] "1234" winReq .notFound (by decide)⟩

/-- Claim C6: Reset Round on an existing game clears the board to 9 empty
cells, clears winner and draw, flips `x_starts`, sets `x_is_next` to the
new `x_starts` value, and leaves scores, player bindings and `game_id`
unchanged; on a missing record it fails with not-found. -/
theorem reset_round_spec :
    (∀ g : Game, ∃ g', reset_round (some g) = .ok g' ∧
      g'.board = List.replicate 9 none ∧
      g'.winner = none ∧
      g'.draw = false ∧
      g'.x_starts = !g.x_starts ∧
      g'.x_is_next = !g.x_starts ∧
      g'.score_x = g.score_x ∧
      g'.score_o = g.score_o ∧
      g'.x_player = g.x_player ∧
      g'.o_player = g.o_player ∧
      g'.game_id = g.game_id) ∧
    reset_round none = .error .notFound :=
  ⟨fun g => ⟨_, rfl, rfl, rfl, rfl, rfl, rfl, rfl, rfl, rfl, rfl, rfl⟩, rfl⟩

/-- Claim C7: Reset Scores on an existing game zeroes both scores, clears
board, winner and draw, sets `x_is_next` to the current (unflipped)
`x_starts`, and leaves `x_starts`, player bindings and `game_id`
unchanged; on a missing record it fails with not-found. -/
theorem reset_scores_spec :
    (∀ g : Game, ∃ g', reset_scores (some g) = .ok g' ∧
      g'.score_x = 0 ∧
      g'.score_o = 0 ∧
      g'.board = List.replicate 9 none ∧
      g'.winner = none ∧
      g'.draw = false ∧
      g'.x_is_next = g.x_starts ∧
      g'.x_starts = g.x_starts ∧
      g'.x_player = g.x_player ∧
      g'.o_player = g.o_player ∧
      g'.game_id = g.game_id) ∧
    reset_scores none = .error .notFound :=
  ⟨fun g => ⟨_, rfl, rfl, rfl, rfl, rfl, rfl, rfl, rfl, rfl, rfl, rfl⟩, rfl⟩

/-- Claim C8: every rejected request — on any of the five operations —
leaves the store exactly as it was: all validation precedes every write,
so no partial mutation is possible (Fetch never writes at all). -/
theorem rejected_request_leaves_store (s : Store) (gid pid : String) (p : MoveRequest)
    (e : ApiError) :
    ((join_ep s gid pid).1 = .error e → (join_ep s gid pid).2 = s) ∧
    (get_ep s gid).2 = s ∧
    ((move_ep s gid p).1 = .error e → (move_ep s gid p).2 = s) ∧
    ((reset_round_ep s gid).1 = .error e → (reset_round_ep s gid).2 = s) ∧
    ((reset_scores_ep s gid).1 = .error e → (reset_scores_ep s gid).2 = s) := by
  refine ⟨?_, rfl, ?_, ?_, ?_⟩
  · intro h
    rw [join_ep] at h ⊢
    cases hm : join_game (findOne s gid) gid pid with
    | error e0 => rfl
    | ok rg => rw [hm] at h; cases h
  · intro h
    rw [move_ep] at h ⊢
    cases hm : make_move (findOne s gid) p with
    | error e0 => rfl
    | ok g0 => rw [hm] at h; cases h
  · intro h
    rw [reset_round_ep] at h ⊢
    cases hm : reset_round (findOne s gid) with
    | error e0 => rfl
    | ok g0 => rw [hm] at h; cases h
  · intro h
    rw [reset_scores_ep] at h ⊢
    cases hm : reset_scores (findOne s gid) with
    | error e0 => rfl
    | ok g0 => rw [hm] at h; cases h

/-- Witness for C8: a malformed-code join and a not-found move, round
reset and score reset all leave a concrete store unchanged. -/
theorem rejected_request_leaves_store_witness :
    (join_ep [] "12" "p").2 = [] ∧
    (move_ep [] "1234" winReq).2 = [] ∧
    (reset_round_ep [] "1234").2 = [] ∧
    (reset_scores_ep [] "1234").2 = [] := by
  have h1 := rejected_request_leaves_store [] "12" "p" winReq .badCode
  have h2 := rejected_request_leaves_store [] "1234" "p" winReq .notFound
  exact ⟨h1.1 (by decide), h2.2.2.1 (by decide), h2.2.2.2.1 (by decide),
    h2.2.2.2.2 (by decide)⟩

theorem join_ok_preserves_winner_draw {game? : Option Game} {gid pid : String} {r : Mark}
    {g' : Game} (h : join_game game? gid pid = .ok (r, g')) :
    (g'.winner = none ∧ g'.draw = false) ∨
    (∃ g, game? = some g ∧ g'.winner = g.winner ∧ g'.draw = g.draw) := by
  rw [join_game.eq_def] at h
  split at h
  · cases h
  · split at h
    · left
      simp only [Except.ok.injEq, Prod.mk.injEq] at h
      obtain ⟨-, rfl⟩ := h
      exact ⟨rfl, rfl⟩
    · rename_i game
      right
      refine ⟨game, rfl, ?_⟩
      repeat' split at h
      all_goals
        first
          | exact Except.noConfusion h
          | (simp only [Except.ok.injEq, Prod.mk.injEq] at h
             obtain ⟨-, rfl⟩ := h
             exact ⟨rfl, rfl⟩)

theorem apply_move_not_both (g : Game) (mk : Mark) (idx : Nat) :
    ¬((apply_move g mk idx).winner.isSome = true ∧ (apply_move g mk idx).draw = true) := by
  rintro ⟨hw, hd⟩
  cases hc : calculate_winner (g.board.set idx (some mk)) with
  | some w =>
    have := (apply_move_winner_some hc).2.1
    rw [this] at hd
    cases hd
  | none =>
    have := (apply_move_winner_none hc).1
    rw [this] at hw
    cases hw

/-- Claim C9: in every game record reachable through the operations
(create-on-join, join, move, reset round, reset scores), at most one of
winner-set and draw holds. -/
theorem winner_draw_exclusive (g : Game) (h : Reachable g) :
    ¬(g.winner.isSome = true ∧ g.draw = true) := by
  induction h with
  | join_new gid pid r g0 hj =>
    rcases join_ok_preserves_winner_draw hj with ⟨hw, -⟩ | ⟨g1, hg1, -, -⟩
    · rintro ⟨hs, -⟩
      rw [hw] at hs
      cases hs
    · cases hg1
  | join_old gid pid r g0 g1 _ hj ih =>
    rcases join_ok_preserves_winner_draw hj with ⟨hw, -⟩ | ⟨g2, hg2, hw, hd⟩
    · rintro ⟨hs, -⟩
      rw [hw] at hs
      cases hs
    · cases hg2
      rw [hw, hd]
      exact ih
  | move p g0 g1 _ hm ih =>
    obtain rfl := make_move_ok_inv hm
    exact apply_move_not_both g0 _ _
  | round_reset g0 g1 _ hr ih =>
    rw [reset_round] at hr
    simp only [Except.ok.injEq] at hr
    subst hr
    rintro ⟨hs, -⟩
    cases hs
  | scores_reset g0 g1 _ hr ih =>
    rw [reset_scores] at hr
    simp only [Except.ok.injEq] at hr
    subst hr
    rintro ⟨hs, -⟩
    cases hs

/-- Witness for C9: the record created by a first join is reachable and
satisfies the exclusivity of winner and draw. -/
theorem winner_draw_exclusive_witness :
    ¬(joinedGame.winner.isSome = true ∧ joinedGame.draw = true) :=
  winner_draw_exclusive joinedGame (.join_new "1234" "p" Mark.X joinedGame (by decide))

/-- Claim C10: only Join validates the room-code format. Fetch, Move,
Reset Round and Reset Scores accept any string as room code and answer
not-found when no record is stored under it — never a malformed-code
error — while Join rejects a malformed code as such. -/
theorem only_join_checks_code (s : Store) (gid pid : String) (p : MoveRequest)
    (h : findOne s gid = none) :
    (get_ep s gid).1 = .error .notFound ∧
    (move_ep s gid p).1 = .error .notFound ∧
    (reset_round_ep s gid).1 = .error .notFound ∧
    (reset_scores_ep s gid).1 = .error .notFound ∧
    (¬(gid ≠ "" ∧ gid.length = 4 ∧ gid.toList.all Char.isDigit = true) →
      (join_ep s gid pid).1 = .error .badCode) := by
  refine ⟨?_, ?_, ?_, ?_, fun hv => ?_⟩
  · rw [get_ep, h]; rfl
  · rw [move_ep, h]; rfl
  · rw [reset_round_ep, h]; rfl
  · rw [reset_scores_ep, h]; rfl
  · rw [join_ep, h, join_game, if_pos hv]

/-- Witness for C10: on an empty store and the non-numeric code `"zzzz"`,
Fetch/Move/Reset Round/Reset Scores all answer not-found while Join
answers malformed-code. -/
theorem only_join_checks_code_witness :
    (get_ep [] "zzzz").1 = .error .notFound ∧
    (move_ep [] "zzzz" winReq).1 = .error .notFound ∧
    (reset_round_ep [] "zzzz").1 = .error .notFound ∧
    (reset_scores_ep [] "zzzz").1 = .error .notFound ∧
    (join_ep [] "zzzz" "p").1 = .error .badCode := by
  have h := only_join_checks_code [] "zzzz" "p" winReq rfl
  exact ⟨h.1, h.2.1, h.2.2.1, h.2.2.2.1, h.2.2.2.2 (by decide)⟩

end TicTacToe
